import Mathlib

/-!
Shallow embedding of the valuation-and-lifecycle core of the zerodha-clone
backend (Express + Mongoose).  Numbers are modelled as `Rat`; the
JavaScript values `NaN` / `Infinity`, which arise from division by zero and
from arithmetic on `undefined`, are modelled by the inductive `JsNum`.
Route handlers are modelled at the level of the record fields they read and
write; the Mongoose schema validation pipeline (required-field validators
followed by user pre-save hooks) is modelled separately where a claim is
about it.
-/

namespace ZClone

/-- A JavaScript number: either a finite (rational) value, or one of the
non-finite IEEE values produced by `0/0`, `x/0` and `undefined * x`. -/
inductive JsNum where
  | finite (q : Rat)
  | nan
  | posInf
  | negInf
deriving Repr, DecidableEq

/-- JavaScript division `a / b` on finite operands: `0/0` is `NaN`,
`x/0` is `±Infinity` for `x ≠ 0`. -/
def jsDiv (a b : Rat) : JsNum :=
  if b = 0 then
    (if a = 0 then JsNum.nan else if 0 < a then JsNum.posInf else JsNum.negInf)
  else JsNum.finite (a / b)

/-- Multiplication of a JavaScript number by the positive constant 100,
as in `(x / y) * 100`: non-finite values are preserved. -/
def jsMul100 : JsNum → JsNum
  | JsNum.finite q => JsNum.finite (q * 100)
  | JsNum.nan => JsNum.nan
  | JsNum.posInf => JsNum.posInf
  | JsNum.negInf => JsNum.negInf

/-- Whether a JavaScript number is finite. -/
def JsNum.isFinite : JsNum → Bool
  | JsNum.finite _ => true
  | _ => false

/-- JavaScript truthiness test on a possibly-`undefined` number:
`!x` is `true` exactly when `x` is `undefined` or `0`. -/
def jsFalsyNum : Option Rat → Bool
  | none => true
  | some q => q = 0

/-- JavaScript truthiness test on a possibly-`undefined` string:
`!s` is `true` exactly when `s` is `undefined` or the empty string. -/
def jsFalsyStr : Option String → Bool
  | none => true
  | some s => s = ""

/-! ## Holdings: route-level model (backend/routes/holdingsRoutes.js)

The holdings routes read and write the fields `name, qty, avg, price, net,
day` on the persisted document; this record models the document as the
route code sees it.  (The mismatch between this field set and
`HoldingsSchema` is modelled separately by `HoldingDoc` below.) -/

structure Holding where
  id : String
  userId : String
  name : String
  qty : Int
  avg : Rat
  price : Rat
  net : Rat
  day : Rat
deriving Repr, DecidableEq

/-- `const net = (price - avg) * qty` (holdingsRoutes.js line 28). -/
def holdingNet (qty : Int) (avg price : Rat) : Rat := (price - avg) * qty

/-- `const day = ((price - avg) / avg) * 100` (holdingsRoutes.js line 29). -/
def holdingDay (avg price : Rat) : Rat := ((price - avg) / avg) * 100

/-- The `holdingValidation` express-validator chain: `name` non-empty
(the validator trims surrounding whitespace first; names are modelled as
already trimmed), `qty` an integer at least 1, `avg` and `price` floats
at least 0.01. -/
def holdingInputValid (name : String) (qty : Int) (avg price : Rat) : Bool :=
  !(name == "") && decide (1 ≤ qty) &&
    decide ((1 : Rat)/100 ≤ avg) && decide ((1 : Rat)/100 ≤ price)

/-- Outcome of the `POST /add` holdings handler, at route level. -/
inductive AddHoldingResult where
  | badRequest
  | conflict
  | created (h : Holding) (store : List Holding)
deriving Repr, DecidableEq

/-- Route-level model of `POST /add` (holdingsRoutes.js lines 17-72):
validate the input, compute `net` and `day`, reject when a holding with the
same `(userId, name)` exists, otherwise persist the new document. -/
def addHolding (newId userId name : String) (qty : Int) (avg price : Rat)
    (store : List Holding) : AddHoldingResult :=
  if !(holdingInputValid name qty avg price) then AddHoldingResult.badRequest
  else
    let net := holdingNet qty avg price
    let day := holdingDay avg price
    if store.any (fun h => h.userId == userId && h.name == name) then
      AddHoldingResult.conflict
    else
      let h : Holding :=
        { id := newId, userId := userId, name := name, qty := qty,
          avg := avg, price := price, net := net, day := day }
      AddHoldingResult.created h (store ++ [h])

/-- The field updates of `PUT /:holdingId` (holdingsRoutes.js lines
155-160) applied to the found holding. -/
def updateHolding (h : Holding) (qty : Int) (avg price : Rat) : Holding :=
  { h with qty := qty, avg := avg, price := price,
           net := holdingNet qty avg price, day := holdingDay avg price }

/-! ## Orders: route-level lifecycle (src/unnamed/part_000) -/

inductive OrderStatus where
  | PENDING
  | OPEN
  | EXECUTED
  | CANCELLED
  | REJECTED
deriving Repr, DecidableEq

/-- `["PENDING", "OPEN"].includes(order.status)`: the statuses in which the
cancel and modify handlers accept the operation. -/
def modifiableStatus (s : OrderStatus) : Bool :=
  s == OrderStatus.PENDING || s == OrderStatus.OPEN

/-- The terminal order statuses. -/
def terminalStatus (s : OrderStatus) : Bool :=
  s == OrderStatus.EXECUTED || s == OrderStatus.CANCELLED ||
    s == OrderStatus.REJECTED

/-- An order as the order routes read and write it. -/
structure RouteOrder where
  id : String
  userId : String
  name : String
  qty : Int
  price : Option Rat
  mode : String
  orderType : String
  validity : String
  triggerPrice : Option Rat
  status : OrderStatus
deriving Repr, DecidableEq

inductive OrderErr where
  | invalidTransition
deriving Repr, DecidableEq

/-- `POST /:orderId/cancel` (part_000 lines 164-173): reject unless the
status is PENDING or OPEN, otherwise set status to CANCELLED. -/
def cancelOrder (o : RouteOrder) : Except OrderErr RouteOrder :=
  if modifiableStatus o.status then
    Except.ok { o with status := OrderStatus.CANCELLED }
  else Except.error OrderErr.invalidTransition

/-- The mutable fields accepted by the modify handler. -/
structure OrderPatch where
  qty : Int
  price : Option Rat
  validity : String
  triggerPrice : Option Rat
deriving Repr, DecidableEq

/-- `PUT /:orderId` (part_000 lines 212-228): reject unless the status is
PENDING or OPEN, otherwise update `qty`, `price`, `validity`,
`triggerPrice`. -/
def modifyOrder (o : RouteOrder) (p : OrderPatch) : Except OrderErr RouteOrder :=
  if modifiableStatus o.status then
    Except.ok { o with qty := p.qty, price := p.price,
                       validity := p.validity, triggerPrice := p.triggerPrice }
  else Except.error OrderErr.invalidTransition

inductive OrderOp where
  | cancel
  | modify (p : OrderPatch)
deriving Repr, DecidableEq

/-- One request against an order: on failure the handler returns an error
response without saving, so the order is unchanged. -/
def stepOrder (o : RouteOrder) (op : OrderOp) : RouteOrder :=
  match op with
  | OrderOp.cancel =>
      match cancelOrder o with
      | Except.ok o2 => o2
      | Except.error _ => o
  | OrderOp.modify p =>
      match modifyOrder o p with
      | Except.ok o2 => o2
      | Except.error _ => o

/-- A sequence of cancel/modify requests against one order. -/
def runOrderOps (o : RouteOrder) (ops : List OrderOp) : RouteOrder :=
  ops.foldl stepOrder o

/-! ## Holdings bulk price update (holdingsRoutes.js lines 219-281) -/

/-- One element of the `updates` array of `POST /bulk-update`. -/
structure BulkUpdateItem where
  holdingId : Option String
  price : Option Rat
deriving Repr, DecidableEq

/-- A per-item error pushed onto the `errors` array. -/
inductive BulkErr where
  | invalidData (id : Option String)
  | notFound (id : String)
deriving Repr, DecidableEq

/-- A queued `updateOne` operation (the `$set` payload of a bulk op). -/
structure BulkOp where
  id : String
  price : Rat
  net : Rat
  day : Rat
deriving Repr, DecidableEq

/-- `HoldingsModel.findOne({ _id: holdingId, userId })`. -/
def findHolding (store : List Holding) (id userId : String) : Option Holding :=
  store.find? (fun h => h.id == id && h.userId == userId)

/-- One iteration of the bulk-update loop: a falsy `holdingId` or `price`
pushes an error, an id not found for the caller pushes an error, and
otherwise an update operation with freshly computed `net` and `day` is
queued.  A failing item only appends to the error list; the remaining
items are still processed. -/
def bulkStep (userId : String) (store : List Holding)
    (acc : List BulkOp × List BulkErr) (u : BulkUpdateItem) :
    List BulkOp × List BulkErr :=
  if jsFalsyStr u.holdingId || jsFalsyNum u.price then
    (acc.1, acc.2 ++ [BulkErr.invalidData u.holdingId])
  else
    match u.holdingId, u.price with
    | some hid, some p =>
        match findHolding store hid userId with
        | none => (acc.1, acc.2 ++ [BulkErr.notFound hid])
        | some h =>
            (acc.1 ++ [{ id := hid, price := p, net := holdingNet h.qty h.avg p,
                         day := holdingDay h.avg p }], acc.2)
    | _, _ => acc

/-- Mongo `updateOne`: update the first document matching the filter. -/
def updateOne (userId : String) (op : BulkOp) : List Holding → List Holding
  | [] => []
  | h :: rest =>
      if h.id == op.id && h.userId == userId then
        { h with price := op.price, net := op.net, day := op.day } :: rest
      else h :: updateOne userId op rest

/-- `HoldingsModel.bulkWrite(bulkOps)`: apply the queued operations in
order. -/
def bulkWrite (userId : String) (store : List Holding) (ops : List BulkOp) :
    List Holding :=
  ops.foldl (fun s op => updateOne userId op s) store

/-- Route-level model of `POST /bulk-update`: collect operations and
per-item errors over the whole list, then apply the operations. -/
def bulkUpdateHoldings (userId : String) (store : List Holding)
    (updates : List BulkUpdateItem) : List Holding × List BulkErr :=
  (bulkWrite userId store (updates.foldl (bulkStep userId store) ([], [])).1,
   (updates.foldl (bulkStep userId store) ([], [])).2)

/-- Whether one bulk item fails, read off the loop's guards: falsy
`holdingId` or `price` (absent, empty or zero), or an id that
`findOne({ _id, userId })` does not resolve for the caller. -/
def itemFails (userId : String) (store : List Holding) (u : BulkUpdateItem) :
    Bool :=
  jsFalsyStr u.holdingId || jsFalsyNum u.price ||
    (match u.holdingId with
     | some hid => (findHolding store hid userId).isNone
     | none => true)

/-- The single error entry a failing item contributes (`none` for an item
that is applied). -/
def errOf (userId : String) (store : List Holding) (u : BulkUpdateItem) :
    Option BulkErr :=
  if jsFalsyStr u.holdingId || jsFalsyNum u.price then
    some (BulkErr.invalidData u.holdingId)
  else
    match u.holdingId, u.price with
    | some hid, some _ =>
        if (findHolding store hid userId).isNone then
          some (BulkErr.notFound hid)
        else none
    | _, _ => none

/-- The update operation a valid item contributes (`none` for a failing
item), with `net` and `day` computed against the stored holding. -/
def opOf (userId : String) (store : List Holding) (u : BulkUpdateItem) :
    Option BulkOp :=
  if jsFalsyStr u.holdingId || jsFalsyNum u.price then none
  else
    match u.holdingId, u.price with
    | some hid, some p =>
        match findHolding store hid userId with
        | none => none
        | some h =>
            some { id := hid, price := p, net := holdingNet h.qty h.avg p,
                   day := holdingDay h.avg p }
    | _, _ => none

/-- The effect of one queued operation on one stored holding: when the
operation's filter matches the holding, its `$set` payload overwrites
`price`, `net` and `day`. -/
def applyBulkOp (userId : String) (op : BulkOp) (h hv : Holding) : Holding :=
  if h.id = op.id ∧ h.userId = userId then
    { hv with price := op.price, net := op.net, day := op.day }
  else hv

/-- The last queued operation whose filter matches the holding — the one
whose `$set` payload survives, since each payload overwrites the whole
mutable field set. -/
def lastApplicable (userId : String) (h : Holding) (ops : List BulkOp) :
    Option BulkOp :=
  ops.foldl
    (fun acc op =>
      if (op.id == h.id) && (h.userId == userId) then some op else acc)
    none

/-! ## Order creation against OrdersSchema (backend/schemas/OrdersSchema.js)

`create` builds a document, applies the schema's field defaults
(`status = PENDING`, `remainingQuantity = quantity`,
`orderValue = price * quantity`), runs the required-field and min
validators, and then the user `pre('save')` hook. -/

inductive OrderType where
  | MARKET
  | LIMIT
  | SL
  | SLM
deriving Repr, DecidableEq

/-- `price` is required exactly for LIMIT and SL orders. -/
def requiresPrice (t : OrderType) : Bool :=
  t == OrderType.LIMIT || t == OrderType.SL

/-- `triggerPrice` is required exactly for SL and SL-M orders. -/
def requiresTrigger (t : OrderType) : Bool :=
  t == OrderType.SL || t == OrderType.SLM

structure OrderSpec where
  symbol : String
  transactionType : String
  quantity : Int
  orderType : OrderType
  price : Option Rat
  triggerPrice : Option Rat
deriving Repr, DecidableEq

structure OrderDoc where
  symbol : String
  transactionType : String
  quantity : Int
  orderType : OrderType
  price : Option Rat
  triggerPrice : Option Rat
  status : String
  remainingQuantity : Int
  orderValue : JsNum
deriving Repr, DecidableEq

/-- The `orderValue` schema default `this.price * this.quantity`
(OrdersSchema.js lines 84-89): with `price` undefined the JavaScript
product is `NaN`. -/
def orderValueDefault (price : Option Rat) (quantity : Int) : JsNum :=
  match price with
  | some p => JsNum.finite (p * quantity)
  | none => JsNum.nan

/-- Whether a possibly-absent number is present and negative (the `min: 0`
validators only fire on a present value). -/
def optNegNum : Option Rat → Bool
  | some q => decide (q < 0)
  | none => false

/-- The schema path validators: required fields, enums and `min` bounds
(OrdersSchema.js lines 3-102).  Mongoose runs these before user
`pre('save')` hooks. -/
def validateOrderFields (s : OrderSpec) : Except String Unit :=
  if s.symbol == "" then Except.error "Stock symbol is required"
  else if !(s.transactionType == "BUY" || s.transactionType == "SELL") then
    Except.error "Transaction type is required"
  else if s.quantity < 1 then Except.error "Quantity must be at least 1"
  else if requiresPrice s.orderType && s.price.isNone then
    Except.error "Price is required"
  else if optNegNum s.price then Except.error "Price cannot be negative"
  else if requiresTrigger s.orderType && s.triggerPrice.isNone then
    Except.error "Trigger price is required"
  else if optNegNum s.triggerPrice then
    Except.error "Trigger price cannot be negative"
  else Except.ok ()

/-- JavaScript `a >= b` on possibly-undefined numbers: comparisons with
`undefined` are false. -/
def jsGeOpt (a b : Option Rat) : Bool :=
  match a, b with
  | some x, some y => decide (y ≤ x)
  | _, _ => false

/-- The `OrdersSchema.pre('save')` hook (OrdersSchema.js lines 115-133):
LIMIT/SL orders need a truthy `price`, SL/SL-M orders need a truthy
`triggerPrice`, and SL orders need `triggerPrice < price`. -/
def preSaveOrderCheck (s : OrderSpec) : Except String Unit :=
  if requiresPrice s.orderType && jsFalsyNum s.price then
    Except.error "Price is required for LIMIT and SL orders"
  else if requiresTrigger s.orderType && jsFalsyNum s.triggerPrice then
    Except.error "Trigger price is required for SL and SL-M orders"
  else if (s.orderType == OrderType.SL) && jsGeOpt s.triggerPrice s.price then
    Except.error "For SL orders, trigger price must be less than limit price"
  else Except.ok ()

/-- Creating an order: apply defaults, run path validation, run the
pre-save hook; on success the persisted document has `status = PENDING`. -/
def createOrder (s : OrderSpec) : Except String OrderDoc :=
  match validateOrderFields s with
  | Except.error e => Except.error e
  | Except.ok _ =>
      match preSaveOrderCheck s with
      | Except.error e => Except.error e
      | Except.ok _ =>
          Except.ok { symbol := s.symbol, transactionType := s.transactionType,
                      quantity := s.quantity, orderType := s.orderType,
                      price := s.price, triggerPrice := s.triggerPrice,
                      status := "PENDING", remainingQuantity := s.quantity,
                      orderValue := orderValueDefault s.price s.quantity }

/-- The conditions under which the save pipeline rejects an order, in
terms of JavaScript truthiness: a zero price or trigger price counts as
missing. -/
def orderRejectCond (s : OrderSpec) : Prop :=
  (requiresPrice s.orderType = true ∧ jsFalsyNum s.price = true) ∨
  (requiresTrigger s.orderType = true ∧ jsFalsyNum s.triggerPrice = true) ∨
  (s.orderType = OrderType.SL ∧ jsGeOpt s.triggerPrice s.price = true)

/-! ## Portfolio aggregation (holdingsRoutes.js GET /, marketRoutes.js GET /) -/

/-- A position as the positions routes read and write it. -/
structure Position where
  id : String
  userId : String
  name : String
  product : String
  qty : Int
  avg : Rat
  price : Rat
  net : Rat
  day : Rat
  isLoss : Bool
deriving Repr, DecidableEq

/-- The metrics object returned by the list endpoints; `pnl` models
`todaysPnL` (holdings) and `dayPnL` (positions). -/
structure PortfolioMetrics where
  totalInvestment : Rat
  currentValue : Rat
  pnl : Rat
  totalPnL : Rat
  totalPnLPercentage : JsNum
deriving Repr, DecidableEq

/-- Holdings `GET /` metrics (holdingsRoutes.js lines 82-96): reductions
over the holding list, then `(totalPnL / totalInvestment) * 100` with no
zero guard. -/
def holdingsMetrics (hs : List Holding) : PortfolioMetrics :=
  let totalInvestment := hs.foldl (fun sum h => sum + h.avg * (h.qty : Rat)) 0
  let currentValue := hs.foldl (fun sum h => sum + h.price * (h.qty : Rat)) 0
  let todaysPnL := hs.foldl (fun sum h => sum + h.net) 0
  let totalPnL := currentValue - totalInvestment
  { totalInvestment := totalInvestment, currentValue := currentValue,
    pnl := todaysPnL, totalPnL := totalPnL,
    totalPnLPercentage := jsMul100 (jsDiv totalPnL totalInvestment) }

/-- Positions `GET /` metrics (marketRoutes.js lines 82-95): the same
shape, but the reductions use `Math.abs(p.qty)`. -/
def positionsMetrics (ps : List Position) : PortfolioMetrics :=
  let totalInvestment := ps.foldl (fun sum p => sum + p.avg * |(p.qty : Rat)|) 0
  let currentValue := ps.foldl (fun sum p => sum + p.price * |(p.qty : Rat)|) 0
  let dayPnL := ps.foldl (fun sum p => sum + p.net) 0
  let totalPnL := currentValue - totalInvestment
  { totalInvestment := totalInvestment, currentValue := currentValue,
    pnl := dayPnL, totalPnL := totalPnL,
    totalPnLPercentage := jsMul100 (jsDiv totalPnL totalInvestment) }

/-! ## Watchlists (src/unnamed/part_001 routes, part_005 schema) -/

/-- A stock reference stored in a watchlist's `stocks` array. -/
structure Stock where
  symbol : String
  exchange : String
deriving Repr, DecidableEq

structure Watchlist where
  id : String
  userId : String
  name : String
  isDefault : Bool
  stocks : List Stock
deriving Repr, DecidableEq

/-- The effect of the `WatchlistSchema.pre('save')` hook's `updateMany` on
one stored watchlist: every watchlist of the same user other than the one
being saved has its default flag cleared. -/
def clearFun (w x : Watchlist) : Watchlist :=
  if x.userId == w.userId && !(x.id == w.id) then { x with isDefault := false }
  else x

/-- `updateMany({ userId, _id: { $ne: this._id } }, { $set: { isDefault:
false } })` (part_005 lines 119-131). -/
def clearOtherDefaults (w : Watchlist) (state : List Watchlist) :
    List Watchlist :=
  state.map (clearFun w)

/-- Replacement of one stored document by the saved one, by id. -/
def replaceFun (w x : Watchlist) : Watchlist :=
  if x.id == w.id then w else x

/-- Mongoose `save`: replace the stored document with the saved one by id,
or insert it when the id is not present. -/
def upsertWatchlist (w : Watchlist) (state : List Watchlist) :
    List Watchlist :=
  if state.any (fun x => x.id == w.id) then state.map (replaceFun w)
  else state ++ [w]

/-- A full watchlist save: the pre-save hook runs first (clearing the
other defaults of the owner when the saved one is default), then the
document is persisted. -/
def saveWatchlist (w : Watchlist) (state : List Watchlist) : List Watchlist :=
  upsertWatchlist w (if w.isDefault then clearOtherDefaults w state else state)

/-- A sequence of watchlist saves starting from an empty store. -/
def runSaves (saves : List Watchlist) : List Watchlist :=
  saves.foldl (fun s w => saveWatchlist w s) []

/-- The number of default watchlists a user owns. -/
def countDefaults (u : String) (state : List Watchlist) : Nat :=
  (state.filter (fun x => x.userId == u && x.isDefault)).length

/-- Two stored watchlists are compatible when their ids differ and they
are not both defaults of one user. -/
def WlRel (a b : Watchlist) : Prop :=
  a.id ≠ b.id ∧ (a.isDefault = true → b.isDefault = true → a.userId ≠ b.userId)

/-- Store well-formedness: pairwise distinct ids, and no two watchlists of
one user both default. -/
def WlInv (state : List Watchlist) : Prop :=
  state.Pairwise WlRel

/-- The `symbol:exchange` key strings the reorder handler builds its `Set`
objects from (part_001 lines 369-374). -/
def stockKey (s : Stock) : String := s.symbol ++ ":" ++ s.exchange

/-- `PUT /:watchlistId/reorder` (part_001 lines 344-412): compare the
*set* of keys of the stored stocks with the set of keys of the submitted
list (equal sizes and every submitted key present), then store the
submitted list as-is. -/
def reorderStocks (wl : Watchlist) (stocks : List Stock) :
    Except String Watchlist :=
  if (wl.stocks.map stockKey).dedup.length ≠ (stocks.map stockKey).dedup.length
  then Except.error "The new order must contain all existing stocks"
  else if stocks.any
      (fun s => !((wl.stocks.map stockKey).contains (stockKey s))) then
    Except.error "Stock is not in the watchlist"
  else Except.ok { wl with stocks := stocks }

/-- JavaScript `Array.findIndex` over the stocks array, matching by symbol
only, as in `DELETE /:watchlistId/remove/:symbol` (part_001 line 280);
`none` models the -1 result. -/
def findSymbolIdx : List Stock → String → Option Nat
  | [], _ => none
  | s :: rest, symbol =>
      if s.symbol == symbol then some 0
      else (findSymbolIdx rest symbol).map (· + 1)

/-- `DELETE /:watchlistId/remove/:symbol` (part_001 lines 262-308): find
the first stock whose *symbol* matches (the exchange is not consulted),
404 when there is none, otherwise `splice` it out. -/
def removeStockRoute (wl : Watchlist) (symbol : String) :
    Except String Watchlist :=
  match findSymbolIdx wl.stocks symbol with
  | none => Except.error "Stock not found"
  | some i => Except.ok { wl with stocks := wl.stocks.eraseIdx i }

/-- `WatchlistSchema.methods.removeItem` (part_005 lines 154-158): filter
out every item matching the exact (symbol, exchange) pair; no error is
ever produced. -/
def removeItem (wl : Watchlist) (symbol exchange : String) : Watchlist :=
  { wl with
    stocks := wl.stocks.filter
      (fun item => !(item.symbol == symbol && item.exchange == exchange)) }

/-! ## HoldingsSchema documents (HoldingsSchema, second half of
backend/schemas/OrdersSchema.js as packaged)

`HoldingsModel` is compiled from `HoldingsSchema`, whose declared paths
are `userId, symbol, exchange, quantity, averageBuyPrice,
currentMarketPrice, ...`.  Mongoose strict mode (the default) silently
drops any constructor field that is not a declared path. -/

structure HoldingDoc where
  userId : Option String
  symbol : Option String
  exchange : String
  quantity : Option Int
  averageBuyPrice : Option Rat
  currentMarketPrice : Option Rat
deriving Repr, DecidableEq

/-- Whether a possibly-absent number is present and negative. -/
def optNegRat : Option Rat → Bool
  | some q => decide (q < 0)
  | none => false

/-- The HoldingsSchema required-field and min validators that run on
`save` (HoldingsSchema lines 148-198). -/
def validateHoldingDoc (d : HoldingDoc) : Except String Unit :=
  if d.userId.isNone then Except.error "User ID is required"
  else if d.symbol.isNone || (d.symbol == some "") then
    Except.error "Stock symbol is required"
  else if d.quantity.isNone then Except.error "Quantity is required"
  else if (match d.quantity with
           | some q => decide (q < 0)
           | none => false) then Except.error "Quantity cannot be negative"
  else if d.averageBuyPrice.isNone then
    Except.error "Average buy price is required"
  else if optNegRat d.averageBuyPrice then
    Except.error "Average buy price cannot be negative"
  else if d.currentMarketPrice.isNone then
    Except.error "Current market price is required"
  else if optNegRat d.currentMarketPrice then
    Except.error "Current market price cannot be negative"
  else Except.ok ()

/-- The document the `POST /add` handler constructs (holdingsRoutes.js
lines 40-49): it passes `userId, name, qty, avg, price, net, day,
lastUpdated`, but `name`, `qty`, `avg`, `price`, `net` and `day` are not
declared paths of HoldingsSchema, so strict mode drops them; the schema's
required paths `symbol`, `quantity`, `averageBuyPrice` and
`currentMarketPrice` are never set. -/
def buildAddHoldingDoc (userId : String) (_name : String) (_qty : Int)
    (_avg _price : Rat) : HoldingDoc :=
  { userId := some userId, symbol := none, exchange := "NSE",
    quantity := none, averageBuyPrice := none, currentMarketPrice := none }

/-- The `findOne({ userId, name })` duplicate check: stored HoldingsSchema
documents have no `name` path, so the name filter matches no document. -/
def docMatchesNameQuery (_d : HoldingDoc) (_name : String) : Bool := false

inductive AddHoldingOutcome where
  | badRequest
  | conflict
  | created (d : HoldingDoc)
  | serverError
deriving Repr, DecidableEq

/-- Schema-level model of the `POST /add` holdings handler: input
validation, duplicate check, then `save` of the constructed document; a
save rejected by schema validation lands in the catch-all 500 branch. -/
def addHoldingHandler (userId name : String) (qty : Int) (avg price : Rat)
    (store : List HoldingDoc) : AddHoldingOutcome :=
  if !(holdingInputValid name qty avg price) then AddHoldingOutcome.badRequest
  else if store.any (fun d =>
      (d.userId == some userId) && docMatchesNameQuery d name) then
    AddHoldingOutcome.conflict
  else
    match validateHoldingDoc (buildAddHoldingDoc userId name qty avg price) with
    | Except.ok _ =>
        AddHoldingOutcome.created (buildAddHoldingDoc userId name qty avg price)
    | Except.error _ => AddHoldingOutcome.serverError

/-! ## Theorems -/

lemma terminal_not_modifiable {s : OrderStatus} (h : terminalStatus s = true) :
    modifiableStatus s = false := by
  cases s <;> simp_all [terminalStatus, modifiableStatus]

lemma stepOrder_terminal {o : RouteOrder} (h : terminalStatus o.status = true)
    (op : OrderOp) : stepOrder o op = o := by
  have hm := terminal_not_modifiable h
  cases op <;> simp [stepOrder, cancelOrder, modifyOrder, hm]

/-- Claim C2: if an order's status is terminal (EXECUTED, CANCELLED or
REJECTED), both modify and cancel fail with an invalid-transition error and
leave the order unchanged; cancel on a PENDING or OPEN order succeeds and
sets the status to CANCELLED; consequently no sequence of modify/cancel
requests changes an order whose status is terminal. -/
theorem order_terminal_states_immutable (o : RouteOrder) (p : OrderPatch)
    (ops : List OrderOp) :
    (terminalStatus o.status = true →
      cancelOrder o = Except.error OrderErr.invalidTransition ∧
      modifyOrder o p = Except.error OrderErr.invalidTransition ∧
      runOrderOps o ops = o) ∧
    (modifiableStatus o.status = true →
      cancelOrder o = Except.ok { o with status := OrderStatus.CANCELLED }) := by
  constructor
  · intro ht
    have hm := terminal_not_modifiable ht
    refine ⟨by simp [cancelOrder, hm], by simp [modifyOrder, hm], ?_⟩
    induction ops with
    | nil => rfl
    | cons op rest ih =>
        simp only [runOrderOps, List.foldl_cons] at *
        rw [stepOrder_terminal ht op]
        exact ih
  · intro hmod
    simp [cancelOrder, hmod]

/-- Witness for C2: a concrete EXECUTED order is untouched by a concrete
sequence of cancel and modify requests, and a concrete PENDING order is
cancelled successfully. -/
theorem order_terminal_states_immutable_witness :
    (cancelOrder { id := "O1", userId := "U", name := "TCS", qty := 1,
                   price := some 10, mode := "BUY", orderType := "LIMIT",
                   validity := "DAY", triggerPrice := none,
                   status := OrderStatus.EXECUTED }
       = Except.error OrderErr.invalidTransition) ∧
    (runOrderOps { id := "O1", userId := "U", name := "TCS", qty := 1,
                   price := some 10, mode := "BUY", orderType := "LIMIT",
                   validity := "DAY", triggerPrice := none,
                   status := OrderStatus.EXECUTED }
        [OrderOp.cancel,
         OrderOp.modify { qty := 5, price := some 7, validity := "IOC",
                          triggerPrice := some 6 }]
       = { id := "O1", userId := "U", name := "TCS", qty := 1,
           price := some 10, mode := "BUY", orderType := "LIMIT",
           validity := "DAY", triggerPrice := none,
           status := OrderStatus.EXECUTED }) := by
  have h := order_terminal_states_immutable
    { id := "O1", userId := "U", name := "TCS", qty := 1,
      price := some 10, mode := "BUY", orderType := "LIMIT",
      validity := "DAY", triggerPrice := none,
      status := OrderStatus.EXECUTED }
    { qty := 5, price := some 7, validity := "IOC", triggerPrice := some 6 }
    [OrderOp.cancel,
     OrderOp.modify { qty := 5, price := some 7, validity := "IOC",
                      triggerPrice := some 6 }]
  have h2 := h.1 (by decide)
  exact ⟨h2.1, h2.2.2⟩

/-- Claim C1: for integer quantity at least 1 and positive prices, the
holding add handler, the update handler and the bulk-update loop all
compute the net profit/loss as `(price - avg) * qty` and the day-change
percentage as `((price - avg) / avg) * 100`, exactly (the bulk-update loop
uses the stored holding's `avg` and `qty` with the new price). -/
theorem holding_metrics_formulas (qty : Int) (avg price : Rat)
    (hq : 1 ≤ qty) (ha : 0 < avg) (hp : 0 < price) :
    (∀ h : Holding,
        (updateHolding h qty avg price).net = (price - avg) * qty ∧
        (updateHolding h qty avg price).day = ((price - avg) / avg) * 100) ∧
    (∀ nid uid nm store h st,
        addHolding nid uid nm qty avg price store = AddHoldingResult.created h st →
        h.net = (price - avg) * qty ∧ h.day = ((price - avg) / avg) * 100) ∧
    (∀ uid store acc (u : BulkUpdateItem) hid (h : Holding),
        u.holdingId = some hid → hid ≠ "" → u.price = some price →
        findHolding store hid uid = some h →
        bulkStep uid store acc u =
          (acc.1 ++ [{ id := hid, price := price,
                       net := (price - h.avg) * h.qty,
                       day := ((price - h.avg) / h.avg) * 100 }], acc.2)) := by
  refine ⟨fun h => ⟨rfl, rfl⟩, ?_, ?_⟩
  · intro nid uid nm store h st hadd
    unfold addHolding at hadd
    split at hadd
    · exact absurd hadd (by simp)
    · split at hadd
      · exact absurd hadd (by simp)
      · injection hadd with h1 h2
        subst h1
        exact ⟨rfl, rfl⟩
  · intro uid store acc u hid h hid_eq hid_ne hprice hfind
    have hfal : (jsFalsyStr u.holdingId || jsFalsyNum u.price) = false := by
      rw [hid_eq, hprice]
      simp [jsFalsyStr, jsFalsyNum, hid_ne, ne_of_gt hp]
    rw [bulkStep, hfal]
    simp only [Bool.false_eq_true, if_false]
    rw [hid_eq, hprice]
    simp [hfind, holdingNet, holdingDay]

/-- Witness for C1, at the spec's own example: qty = 10, avg = 100,
price = 120 gives net = 200 and day change = 20 percent. -/
theorem holding_metrics_formulas_witness :
    (updateHolding
        { id := "H1", userId := "U", name := "TCS", qty := 1, avg := 1,
          price := 1, net := 0, day := 0 } 10 100 120).net = 200 ∧
    (updateHolding
        { id := "H1", userId := "U", name := "TCS", qty := 1, avg := 1,
          price := 1, net := 0, day := 0 } 10 100 120).day = 20 := by
  have h := (holding_metrics_formulas 10 100 120 (by decide) (by decide)
      (by decide)).1
    { id := "H1", userId := "U", name := "TCS", qty := 1, avg := 1,
      price := 1, net := 0, day := 0 }
  exact ⟨h.1.trans (by norm_num), h.2.trans (by norm_num)⟩

/-- Counterexample to C3 as stated: a LIMIT order whose price is present
but equal to 0 has none of the claim's failure conditions (the price is
not absent), so the claim says creation succeeds; the code's pre-save hook
tests JavaScript truthiness (`!this.price`) and rejects it. -/
theorem createOrder_limit_zero_price_counterexample :
    createOrder { symbol := "TCS", transactionType := "BUY", quantity := 1,
                  orderType := OrderType.LIMIT, price := some 0,
                  triggerPrice := none }
      = Except.error "Price is required for LIMIT and SL orders" ∧
    (some (0 : Rat)) ≠ (none : Option Rat) := by
  exact ⟨rfl, by decide⟩

lemma preSaveOrderCheck_ok_iff (s : OrderSpec) :
    preSaveOrderCheck s = Except.ok () ↔
      ((requiresPrice s.orderType && jsFalsyNum s.price) = false ∧
       (requiresTrigger s.orderType && jsFalsyNum s.triggerPrice) = false ∧
       ((s.orderType == OrderType.SL) && jsGeOpt s.triggerPrice s.price) = false) := by
  unfold preSaveOrderCheck
  split
  · rename_i h1; simp_all
  · split
    · rename_i h2; simp_all
    · split
      · rename_i h3; simp_all
      · simp_all

/-- Claim C3 (amended): for an order specification whose non-type-specific
fields are valid (non-empty symbol, BUY/SELL transaction type, quantity at
least 1, non-negative prices where present), creation fails exactly when
the order type is LIMIT or SL and the price is absent *or zero*, or the
order type is SL or SL-M and the trigger price is absent *or zero*, or the
order type is SL and the trigger price is at least the price (both being
present); otherwise it succeeds and the created order has status
PENDING. -/
theorem createOrder_validation (s : OrderSpec)
    (hsym : s.symbol ≠ "")
    (htt : s.transactionType = "BUY" ∨ s.transactionType = "SELL")
    (hq : 1 ≤ s.quantity)
    (hpr : ∀ p, s.price = some p → 0 ≤ p)
    (htr : ∀ t, s.triggerPrice = some t → 0 ≤ t) :
    ((∃ d, createOrder s = Except.ok d) ↔ ¬ orderRejectCond s) ∧
    (∀ d, createOrder s = Except.ok d → d.status = "PENDING") := by
  have hprneg : optNegNum s.price = false := by
    cases hpc : s.price with
    | none => simp [optNegNum]
    | some p => simp [optNegNum, not_lt.mpr (hpr p hpc)]
  have htrneg : optNegNum s.triggerPrice = false := by
    cases htc : s.triggerPrice with
    | none => simp [optNegNum]
    | some t => simp [optNegNum, not_lt.mpr (htr t htc)]
  have httb : (s.transactionType == "BUY" || s.transactionType == "SELL") = true := by
    rcases htt with h | h <;> simp [h]
  have hvf : validateOrderFields s =
      (if requiresPrice s.orderType && s.price.isNone then
        Except.error "Price is required"
      else if requiresTrigger s.orderType && s.triggerPrice.isNone then
        Except.error "Trigger price is required"
      else Except.ok ()) := by
    unfold validateOrderFields
    rw [if_neg (by simpa using hsym), httb]
    simp only [Bool.not_true, Bool.false_eq_true, if_false]
    rw [if_neg (by omega), hprneg, htrneg]
    simp
  refine ⟨⟨?_, ?_⟩, ?_⟩
  · rintro ⟨d, hd⟩ hrej
    unfold createOrder at hd
    cases hv : validateOrderFields s with
    | error e => rw [hv] at hd; exact absurd hd (by simp)
    | ok u =>
        cases u
        rw [hv] at hd
        cases hps : preSaveOrderCheck s with
        | error e => rw [hps] at hd; exact absurd hd (by simp)
        | ok u2 =>
            cases u2
            have hp2 := (preSaveOrderCheck_ok_iff s).mp hps
            rcases hrej with ⟨h1, h2⟩ | ⟨h1, h2⟩ | ⟨h1, h2⟩
            · exact absurd hp2.1 (by simp [h1, h2])
            · exact absurd hp2.2.1 (by simp [h1, h2])
            · exact absurd hp2.2.2 (by simp [h1, h2])
  · intro hrej
    have h1 : ¬(requiresPrice s.orderType = true ∧ jsFalsyNum s.price = true) :=
      fun h => hrej (Or.inl h)
    have h2 : ¬(requiresTrigger s.orderType = true ∧
        jsFalsyNum s.triggerPrice = true) :=
      fun h => hrej (Or.inr (Or.inl h))
    have h3 : ¬(s.orderType = OrderType.SL ∧
        jsGeOpt s.triggerPrice s.price = true) :=
      fun h => hrej (Or.inr (Or.inr h))
    have c1 : (requiresPrice s.orderType && jsFalsyNum s.price) = false := by
      cases hb : (requiresPrice s.orderType && jsFalsyNum s.price) with
      | false => rfl
      | true => simp only [Bool.and_eq_true] at hb; exact absurd hb h1
    have c2 : (requiresTrigger s.orderType && jsFalsyNum s.triggerPrice) = false := by
      cases hb : (requiresTrigger s.orderType && jsFalsyNum s.triggerPrice) with
      | false => rfl
      | true => simp only [Bool.and_eq_true] at hb; exact absurd hb h2
    have c3 : ((s.orderType == OrderType.SL) && jsGeOpt s.triggerPrice s.price)
        = false := by
      cases hb : ((s.orderType == OrderType.SL) && jsGeOpt s.triggerPrice s.price) with
      | false => rfl
      | true =>
          simp only [Bool.and_eq_true] at hb
          exact absurd ⟨by simpa using hb.1, hb.2⟩ h3
    have cv1 : (requiresPrice s.orderType && s.price.isNone) = false := by
      cases hpc : s.price with
      | none => rw [hpc] at c1; simpa [jsFalsyNum] using c1
      | some p => simp
    have cv2 : (requiresTrigger s.orderType && s.triggerPrice.isNone) = false := by
      cases htc : s.triggerPrice with
      | none => rw [htc] at c2; simpa [jsFalsyNum] using c2
      | some t => simp
    have hv : validateOrderFields s = Except.ok () := by
      rw [hvf, cv1, cv2]; simp
    have hps : preSaveOrderCheck s = Except.ok () :=
      (preSaveOrderCheck_ok_iff s).mpr ⟨c1, c2, c3⟩
    refine ⟨{ symbol := s.symbol, transactionType := s.transactionType,
              quantity := s.quantity, orderType := s.orderType,
              price := s.price, triggerPrice := s.triggerPrice,
              status := "PENDING", remainingQuantity := s.quantity,
              orderValue := orderValueDefault s.price s.quantity }, ?_⟩
    unfold createOrder
    rw [hv, hps]
  · intro d hd
    unfold createOrder at hd
    cases hv : validateOrderFields s with
    | error e => rw [hv] at hd; exact absurd hd (by simp)
    | ok u =>
        cases u
        rw [hv] at hd
        cases hps : preSaveOrderCheck s with
        | error e => rw [hps] at hd; exact absurd hd (by simp)
        | ok u2 =>
            cases u2
            rw [hps] at hd
            simp only [Except.ok.injEq] at hd
            rw [← hd]

/-- Witness for C3 (amended): a concrete LIMIT order with a positive price
is created successfully and has status PENDING. -/
theorem createOrder_validation_witness :
    createOrder { symbol := "TCS", transactionType := "BUY", quantity := 3,
                  orderType := OrderType.LIMIT, price := some 5,
                  triggerPrice := none }
      = Except.ok { symbol := "TCS", transactionType := "BUY", quantity := 3,
                    orderType := OrderType.LIMIT, price := some 5,
                    triggerPrice := none, status := "PENDING",
                    remainingQuantity := 3, orderValue := JsNum.finite 15 } ∧
    ({ symbol := "TCS", transactionType := "BUY", quantity := 3,
       orderType := OrderType.LIMIT, price := some 5,
       triggerPrice := none, status := "PENDING",
       remainingQuantity := 3, orderValue := JsNum.finite 15 } :
        OrderDoc).status = "PENDING" := by
  have hco :
      createOrder { symbol := "TCS", transactionType := "BUY", quantity := 3,
                    orderType := OrderType.LIMIT, price := some 5,
                    triggerPrice := none }
      = Except.ok { symbol := "TCS", transactionType := "BUY", quantity := 3,
                    orderType := OrderType.LIMIT, price := some 5,
                    triggerPrice := none, status := "PENDING",
                    remainingQuantity := 3, orderValue := JsNum.finite 15 } := by
    unfold createOrder validateOrderFields preSaveOrderCheck
    norm_num [requiresPrice, requiresTrigger, optNegNum, jsFalsyNum, jsGeOpt,
      orderValueDefault]
    have h1 : ¬("TCS" = "") := by decide
    have h2 : ¬(OrderType.LIMIT = OrderType.SL ∨ OrderType.LIMIT = OrderType.SLM) := by
      decide
    simp [h1, h2]
  refine ⟨hco, ?_⟩
  exact (createOrder_validation
    { symbol := "TCS", transactionType := "BUY", quantity := 3,
      orderType := OrderType.LIMIT, price := some 5, triggerPrice := none }
    (by decide) (Or.inl rfl) (by decide)
    (fun p hp => by injection hp with h; rw [← h]; norm_num)
    (fun t ht => by cases ht)).2
    { symbol := "TCS", transactionType := "BUY", quantity := 3,
      orderType := OrderType.LIMIT, price := some 5,
      triggerPrice := none, status := "PENDING",
      remainingQuantity := 3, orderValue := JsNum.finite 15 }
    hco

/-- Counterexample to C9 as stated: a MARKET order with no price is
created successfully, and its `orderValue` default evaluates
`undefined * quantity`, which is `NaN` — not `0` as the claim states. -/
theorem createOrder_market_nan_counterexample :
    createOrder { symbol := "TCS", transactionType := "BUY", quantity := 2,
                  orderType := OrderType.MARKET, price := none,
                  triggerPrice := none }
      = Except.ok { symbol := "TCS", transactionType := "BUY", quantity := 2,
                    orderType := OrderType.MARKET, price := none,
                    triggerPrice := none, status := "PENDING",
                    remainingQuantity := 2, orderValue := JsNum.nan } ∧
    JsNum.nan ≠ JsNum.finite 0 := by
  constructor
  · unfold createOrder validateOrderFields preSaveOrderCheck
    norm_num [requiresPrice, requiresTrigger, optNegNum, jsFalsyNum, jsGeOpt,
      orderValueDefault]
    have e1 : ¬("TCS" = "") := by decide
    have e2 : ¬(OrderType.MARKET = OrderType.LIMIT ∨
        OrderType.MARKET = OrderType.SL) := by decide
    have e3 : ¬(OrderType.MARKET = OrderType.SL ∨
        OrderType.MARKET = OrderType.SLM) := by decide
    simp [e1, e2, e3]
  · decide

/-- Claim C9 (amended): every successfully created order has
`remainingQuantity` equal to `quantity`, and `orderValue` equal to
`price * quantity` when a price is present but equal to the non-finite
JavaScript value `NaN` (not 0) when the price is absent, as for a MARKET
order. -/
theorem createOrder_defaults (s : OrderSpec) (d : OrderDoc)
    (h : createOrder s = Except.ok d) :
    d.remainingQuantity = s.quantity ∧
    (∀ p, s.price = some p → d.orderValue = JsNum.finite (p * s.quantity)) ∧
    (s.price = none → d.orderValue = JsNum.nan) := by
  unfold createOrder at h
  cases hv : validateOrderFields s with
  | error e => rw [hv] at h; exact absurd h (by simp)
  | ok u =>
      cases u
      rw [hv] at h
      cases hps : preSaveOrderCheck s with
      | error e => rw [hps] at h; exact absurd h (by simp)
      | ok u2 =>
          cases u2
          rw [hps] at h
          simp only [Except.ok.injEq] at h
          subst h
          refine ⟨rfl, ?_, ?_⟩
          · intro p hp; simp [orderValueDefault, hp]
          · intro hp; simp [orderValueDefault, hp]

/-- Witness for C9 (amended), at a concrete MARKET order without price:
remaining quantity 2 and `NaN` order value. -/
theorem createOrder_defaults_witness :
    ({ symbol := "TCS", transactionType := "BUY", quantity := 2,
       orderType := OrderType.MARKET, price := none,
       triggerPrice := none, status := "PENDING",
       remainingQuantity := 2, orderValue := JsNum.nan } :
        OrderDoc).remainingQuantity = 2 ∧
    ({ symbol := "TCS", transactionType := "BUY", quantity := 2,
       orderType := OrderType.MARKET, price := none,
       triggerPrice := none, status := "PENDING",
       remainingQuantity := 2, orderValue := JsNum.nan } :
        OrderDoc).orderValue = JsNum.nan := by
  have hco :
      createOrder { symbol := "TCS", transactionType := "BUY", quantity := 2,
                    orderType := OrderType.MARKET, price := none,
                    triggerPrice := none }
      = Except.ok { symbol := "TCS", transactionType := "BUY", quantity := 2,
                    orderType := OrderType.MARKET, price := none,
                    triggerPrice := none, status := "PENDING",
                    remainingQuantity := 2, orderValue := JsNum.nan } := by
    unfold createOrder validateOrderFields preSaveOrderCheck
    norm_num [requiresPrice, requiresTrigger, optNegNum, jsFalsyNum, jsGeOpt,
      orderValueDefault]
    have e1 : ¬("TCS" = "") := by decide
    have e2 : ¬(OrderType.MARKET = OrderType.LIMIT ∨
        OrderType.MARKET = OrderType.SL) := by decide
    have e3 : ¬(OrderType.MARKET = OrderType.SL ∨
        OrderType.MARKET = OrderType.SLM) := by decide
    simp [e1, e2, e3]
  have h := createOrder_defaults _ _ hco
  exact ⟨h.1, h.2.2 rfl⟩

lemma isFinite_jsMul100_jsDiv_zero (a : Rat) :
    JsNum.isFinite (jsMul100 (jsDiv a 0)) = false := by
  unfold jsDiv
  simp only [if_pos rfl]
  by_cases h : a = 0
  · simp [h, jsMul100, JsNum.isFinite]
  · by_cases h2 : 0 < a
    · simp [h, h2, jsMul100, JsNum.isFinite]
    · simp [h, h2, jsMul100, JsNum.isFinite]

lemma foldl_add_map {α : Type} (f : α → Rat) (l : List α) (init : Rat) :
    l.foldl (fun sum x => sum + f x) init = init + (l.map f).sum := by
  induction l generalizing init with
  | nil => simp
  | cons a t ih => simp [ih, add_assoc]

/-- Counterexample to C4 as stated: for positions the code sums
`avg * Math.abs(qty)`, not `avg * qty` (a short position with qty = -1 and
avg = 10 contributes 10, not -10); and with an empty holding list
(totalInvestment = 0) the percentage is computed anyway and is `NaN`
rather than any UndefinedPercentage signal. -/
theorem portfolio_aggregation_counterexample :
    (positionsMetrics
        [{ id := "P1", userId := "U", name := "X", product := "MIS",
           qty := -1, avg := 10, price := 12, net := -2, day := 20,
           isLoss := true }]).totalInvestment = 10 ∧
    ((10 : Rat) ≠
      ({ id := "P1", userId := "U", name := "X", product := "MIS",
         qty := -1, avg := 10, price := 12, net := -2, day := 20,
         isLoss := true } : Position).avg *
        (({ id := "P1", userId := "U", name := "X", product := "MIS",
            qty := -1, avg := 10, price := 12, net := -2, day := 20,
            isLoss := true } : Position).qty : Rat)) ∧
    (holdingsMetrics []).totalPnLPercentage = JsNum.nan := by
  refine ⟨?_, ?_, ?_⟩
  · show (0 : Rat) + 10 * |((-1 : Int) : Rat)| = 10
    norm_num
  · show (10 : Rat) ≠ 10 * ((-1 : Int) : Rat)
    norm_num
  · simp [holdingsMetrics, jsDiv, jsMul100]

/-- Claim C4 (amended): portfolio aggregation over holdings returns
totalInvestment = Σ avg*qty, currentValue = Σ price*qty,
todaysPnL = Σ net and totalPnL = currentValue - totalInvestment; for
positions the sums use `Math.abs(qty)` instead of `qty`.  When
totalInvestment is nonzero the percentage is
totalPnL/totalInvestment*100; when totalInvestment = 0 the code performs
the division anyway and the percentage is a non-finite JavaScript value
(NaN or ±Infinity), with no UndefinedPercentage signal. -/
theorem portfolio_aggregation (hs : List Holding) (ps : List Position) :
    ((holdingsMetrics hs).totalInvestment
        = (hs.map (fun h => h.avg * (h.qty : Rat))).sum ∧
      (holdingsMetrics hs).currentValue
        = (hs.map (fun h => h.price * (h.qty : Rat))).sum ∧
      (holdingsMetrics hs).pnl = (hs.map Holding.net).sum ∧
      (holdingsMetrics hs).totalPnL
        = (holdingsMetrics hs).currentValue -
            (holdingsMetrics hs).totalInvestment ∧
      ((holdingsMetrics hs).totalInvestment ≠ 0 →
        (holdingsMetrics hs).totalPnLPercentage =
          JsNum.finite ((holdingsMetrics hs).totalPnL /
            (holdingsMetrics hs).totalInvestment * 100)) ∧
      ((holdingsMetrics hs).totalInvestment = 0 →
        JsNum.isFinite (holdingsMetrics hs).totalPnLPercentage = false)) ∧
    ((positionsMetrics ps).totalInvestment
        = (ps.map (fun p => p.avg * |(p.qty : Rat)|)).sum ∧
      (positionsMetrics ps).currentValue
        = (ps.map (fun p => p.price * |(p.qty : Rat)|)).sum ∧
      (positionsMetrics ps).pnl = (ps.map Position.net).sum ∧
      (positionsMetrics ps).totalPnL
        = (positionsMetrics ps).currentValue -
            (positionsMetrics ps).totalInvestment ∧
      ((positionsMetrics ps).totalInvestment ≠ 0 →
        (positionsMetrics ps).totalPnLPercentage =
          JsNum.finite ((positionsMetrics ps).totalPnL /
            (positionsMetrics ps).totalInvestment * 100)) ∧
      ((positionsMetrics ps).totalInvestment = 0 →
        JsNum.isFinite (positionsMetrics ps).totalPnLPercentage = false)) := by
  constructor
  · refine ⟨by simp [holdingsMetrics, foldl_add_map],
      by simp [holdingsMetrics, foldl_add_map],
      by simp [holdingsMetrics, foldl_add_map], rfl, ?_, ?_⟩
    · intro hne
      simp only [holdingsMetrics] at hne ⊢
      rw [jsDiv, if_neg hne]
      rfl
    · intro hz
      simp only [holdingsMetrics] at hz ⊢
      rw [hz]
      exact isFinite_jsMul100_jsDiv_zero _
  · refine ⟨by simp [positionsMetrics, foldl_add_map],
      by simp [positionsMetrics, foldl_add_map],
      by simp [positionsMetrics, foldl_add_map], rfl, ?_, ?_⟩
    · intro hne
      simp only [positionsMetrics] at hne ⊢
      rw [jsDiv, if_neg hne]
      rfl
    · intro hz
      simp only [positionsMetrics] at hz ⊢
      rw [hz]
      exact isFinite_jsMul100_jsDiv_zero _

/-- Witness for C4 (amended), at the spec's example holding (qty = 10,
avg = 100, price = 120): investment 1000, current value 1200, total
profit 200, percentage 20; and at the empty position list the percentage
is non-finite. -/
theorem portfolio_aggregation_witness :
    (holdingsMetrics
        [{ id := "H1", userId := "U", name := "TCS", qty := 10, avg := 100,
           price := 120, net := 200, day := 20 }]).totalInvestment = 1000 ∧
    (holdingsMetrics
        [{ id := "H1", userId := "U", name := "TCS", qty := 10, avg := 100,
           price := 120, net := 200, day := 20 }]).totalPnL = 200 ∧
    JsNum.isFinite (positionsMetrics []).totalPnLPercentage = false := by
  have h := portfolio_aggregation
    [{ id := "H1", userId := "U", name := "TCS", qty := 10, avg := 100,
       price := 120, net := 200, day := 20 }] []
  have h1 : (holdingsMetrics
      [{ id := "H1", userId := "U", name := "TCS", qty := 10, avg := 100,
         price := 120, net := 200, day := 20 }]).totalInvestment = 1000 := by
    rw [h.1.1]
    norm_num
  have h2 : (holdingsMetrics
      [{ id := "H1", userId := "U", name := "TCS", qty := 10, avg := 100,
         price := 120, net := 200, day := 20 }]).currentValue = 1200 := by
    rw [h.1.2.1]
    norm_num
  refine ⟨h1, ?_, ?_⟩
  · rw [h.1.2.2.2.1, h1, h2]
    norm_num
  · refine h.2.2.2.2.2.2 ?_
    rw [h.2.1]
    simp

lemma clearFun_id (w x : Watchlist) : (clearFun w x).id = x.id := by
  unfold clearFun; split <;> rfl

lemma clearFun_userId (w x : Watchlist) : (clearFun w x).userId = x.userId := by
  unfold clearFun; split <;> rfl

lemma clearFun_default_mono (w x : Watchlist) :
    (clearFun w x).isDefault = true → x.isDefault = true := by
  unfold clearFun; split
  · intro h; simp at h
  · exact id

lemma clearFun_clears (w x : Watchlist) (h1 : x.userId = w.userId)
    (h2 : x.id ≠ w.id) : (clearFun w x).isDefault = false := by
  unfold clearFun
  rw [if_pos (by simp [h1, h2])]

lemma wlRel_clear_step (w : Watchlist) (a b : Watchlist) (hab : WlRel a b) :
    WlRel (clearFun w a) (clearFun w b) := by
  obtain ⟨hid, hdef⟩ := hab
  constructor
  · rw [clearFun_id, clearFun_id]; exact hid
  · intro h1 h2
    rw [clearFun_userId, clearFun_userId]
    exact hdef (clearFun_default_mono w a h1) (clearFun_default_mono w b h2)

lemma wlRel_default_step (w : Watchlist) (hd : w.isDefault = true)
    (a b : Watchlist) (hab : WlRel a b) :
    WlRel (replaceFun w (clearFun w a)) (replaceFun w (clearFun w b)) := by
  obtain ⟨hid, hdef⟩ := hab
  by_cases ha : a.id = w.id <;> by_cases hb : b.id = w.id
  · exact absurd (ha.trans hb.symm) hid
  · have e1 : replaceFun w (clearFun w a) = w := by
      unfold replaceFun; rw [if_pos (by simp [clearFun_id, ha])]
    have e2 : replaceFun w (clearFun w b) = clearFun w b := by
      unfold replaceFun; rw [if_neg (by simp [clearFun_id, hb])]
    rw [e1, e2]
    constructor
    · rw [clearFun_id]; exact fun hh => hb hh.symm
    · intro _ hcb
      rw [clearFun_userId]
      intro hu
      rw [clearFun_clears w b hu.symm hb] at hcb
      simp at hcb
  · have e1 : replaceFun w (clearFun w a) = clearFun w a := by
      unfold replaceFun; rw [if_neg (by simp [clearFun_id, ha])]
    have e2 : replaceFun w (clearFun w b) = w := by
      unfold replaceFun; rw [if_pos (by simp [clearFun_id, hb])]
    rw [e1, e2]
    constructor
    · rw [clearFun_id]; exact ha
    · intro hca _
      rw [clearFun_userId]
      intro hu
      rw [clearFun_clears w a hu ha] at hca
      simp at hca
  · have e1 : replaceFun w (clearFun w a) = clearFun w a := by
      unfold replaceFun; rw [if_neg (by simp [clearFun_id, ha])]
    have e2 : replaceFun w (clearFun w b) = clearFun w b := by
      unfold replaceFun; rw [if_neg (by simp [clearFun_id, hb])]
    rw [e1, e2]
    exact wlRel_clear_step w a b ⟨hid, hdef⟩

lemma wlRel_nondefault_step (w : Watchlist) (hd : w.isDefault = false)
    (a b : Watchlist) (hab : WlRel a b) :
    WlRel (replaceFun w a) (replaceFun w b) := by
  obtain ⟨hid, hdef⟩ := hab
  by_cases ha : a.id = w.id <;> by_cases hb : b.id = w.id
  · exact absurd (ha.trans hb.symm) hid
  · have e1 : replaceFun w a = w := by unfold replaceFun; rw [if_pos (by simp [ha])]
    have e2 : replaceFun w b = b := by unfold replaceFun; rw [if_neg (by simp [hb])]
    rw [e1, e2]
    exact ⟨fun hh => hb hh.symm, fun hw _ => by rw [hd] at hw; cases hw⟩
  · have e1 : replaceFun w a = a := by unfold replaceFun; rw [if_neg (by simp [ha])]
    have e2 : replaceFun w b = w := by unfold replaceFun; rw [if_pos (by simp [hb])]
    rw [e1, e2]
    exact ⟨ha, fun _ hw => by rw [hd] at hw; cases hw⟩
  · have e1 : replaceFun w a = a := by unfold replaceFun; rw [if_neg (by simp [ha])]
    have e2 : replaceFun w b = b := by unfold replaceFun; rw [if_neg (by simp [hb])]
    rw [e1, e2]
    exact ⟨hid, hdef⟩

lemma wlInv_save (w : Watchlist) (s : List Watchlist) (h : WlInv s) :
    WlInv (saveWatchlist w s) := by
  by_cases hd : w.isDefault = true
  · have e : saveWatchlist w s = upsertWatchlist w (clearOtherDefaults w s) := by
      unfold saveWatchlist; rw [if_pos hd]
    rw [e]
    unfold upsertWatchlist
    by_cases hm : (clearOtherDefaults w s).any (fun x => x.id == w.id) = true
    · rw [if_pos hm]
      unfold clearOtherDefaults
      rw [List.map_map]
      exact List.Pairwise.map _ (fun a b hab => wlRel_default_step w hd a b hab) h
    · rw [if_neg hm]
      apply List.pairwise_append.mpr
      refine ⟨List.Pairwise.map _ (fun a b hab => wlRel_clear_step w a b hab) h,
        List.pairwise_singleton _ _, ?_⟩
      intro x hx w2 hw2
      rw [List.mem_singleton] at hw2
      subst w2
      have hxid : x.id ≠ w.id := by
        intro hxe
        apply hm
        rw [List.any_eq_true]
        exact ⟨x, hx, by simp [hxe]⟩
      refine ⟨hxid, ?_⟩
      intro hxdef _
      obtain ⟨z, hz, hzc⟩ := List.mem_map.mp hx
      subst hzc
      intro hu
      rw [clearFun_userId] at hu
      rw [clearFun_clears w z hu (by rw [← clearFun_id w z]; exact hxid)] at hxdef
      cases hxdef
  · have hdf : w.isDefault = false := by
      cases hw : w.isDefault
      · rfl
      · exact absurd hw hd
    have e : saveWatchlist w s = upsertWatchlist w s := by
      unfold saveWatchlist; rw [if_neg (by rw [hdf]; simp)]
    rw [e]
    unfold upsertWatchlist
    by_cases hm : s.any (fun x => x.id == w.id) = true
    · rw [if_pos hm]
      exact List.Pairwise.map _ (fun a b hab => wlRel_nondefault_step w hdf a b hab) h
    · rw [if_neg hm]
      apply List.pairwise_append.mpr
      refine ⟨h, List.pairwise_singleton _ _, ?_⟩
      intro x hx w2 hw2
      rw [List.mem_singleton] at hw2
      subst w2
      have hxid : x.id ≠ w.id := by
        intro hxe
        apply hm
        rw [List.any_eq_true]
        exact ⟨x, hx, by simp [hxe]⟩
      exact ⟨hxid, fun _ hw => by rw [hdf] at hw; cases hw⟩

lemma save_default_clears (w : Watchlist) (s : List Watchlist)
    (hd : w.isDefault = true) :
    ∀ x ∈ saveWatchlist w s, x.userId = w.userId → x.id ≠ w.id →
      x.isDefault = false := by
  intro x hx hu hne
  have e : saveWatchlist w s = upsertWatchlist w (clearOtherDefaults w s) := by
    unfold saveWatchlist; rw [if_pos hd]
  rw [e] at hx
  unfold upsertWatchlist at hx
  have hclear : ∀ y ∈ clearOtherDefaults w s, y = x → x.isDefault = false := by
    intro y hy hyx
    obtain ⟨z, hz, hzc⟩ := List.mem_map.mp hy
    subst hyx
    subst hzc
    apply clearFun_clears
    · rw [← clearFun_userId w z]; exact hu
    · rw [← clearFun_id w z]; exact hne
  by_cases hm : (clearOtherDefaults w s).any (fun y => y.id == w.id) = true
  · rw [if_pos hm] at hx
    obtain ⟨y, hy, hyx⟩ := List.mem_map.mp hx
    by_cases hyid : y.id = w.id
    · rw [replaceFun, if_pos (by simp [hyid])] at hyx
      subst hyx
      exact absurd rfl hne
    · rw [replaceFun, if_neg (by simp [hyid])] at hyx
      exact hclear y hy hyx
  · rw [if_neg hm] at hx
    rcases List.mem_append.mp hx with hx1 | hx2
    · exact hclear x hx1 rfl
    · rw [List.mem_singleton] at hx2
      subst hx2
      exact absurd rfl hne

lemma countDefaults_le_one (u : String) (s : List Watchlist) (h : WlInv s) :
    countDefaults u s ≤ 1 := by
  unfold countDefaults
  have hp : (s.filter (fun x => x.userId == u && x.isDefault)).Pairwise WlRel :=
    List.Pairwise.sublist (List.filter_sublist s) h
  cases hf : s.filter (fun x => x.userId == u && x.isDefault) with
  | nil => simp
  | cons x t =>
      cases ht : t with
      | nil => simp
      | cons y t2 =>
          exfalso
          rw [hf, ht] at hp
          have hrel := (List.pairwise_cons.mp hp).1 y (by simp)
          have hx : x ∈ s.filter (fun x => x.userId == u && x.isDefault) := by
            rw [hf]; simp
          have hy : y ∈ s.filter (fun x => x.userId == u && x.isDefault) := by
            rw [hf, ht]; simp
          have px := (List.mem_filter.mp hx).2
          have py := (List.mem_filter.mp hy).2
          simp only [Bool.and_eq_true, beq_iff_eq] at px py
          exact hrel.2 px.2 py.2 (px.1.trans py.1.symm)

/-- Claim C6: starting from an empty store, after any sequence of
watchlist saves at most one watchlist per user has `isDefault = true`;
moreover, saving a watchlist marked default clears the default flag of
every other watchlist of the same owner within the same save operation. -/
theorem watchlist_single_default (saves : List Watchlist) (u : String)
    (w : Watchlist) (s : List Watchlist) :
    countDefaults u (runSaves saves) ≤ 1 ∧
    (w.isDefault = true →
      ∀ x ∈ saveWatchlist w s, x.userId = w.userId → x.id ≠ w.id →
        x.isDefault = false) := by
  constructor
  · apply countDefaults_le_one
    have hstep : ∀ (ws : List Watchlist) (st : List Watchlist), WlInv st →
        WlInv (ws.foldl (fun acc v => saveWatchlist v acc) st) := by
      intro ws
      induction ws with
      | nil => exact fun st h => h
      | cons a t ih => exact fun st h => ih _ (wlInv_save a st h)
    exact hstep saves [] List.Pairwise.nil
  · exact fun hd => save_default_clears w s hd

/-- Witness for C6: after saving two default watchlists of the same user
in sequence, that user still owns at most one default list; and in the
concrete result the first one's flag has indeed been cleared. -/
theorem watchlist_single_default_witness :
    countDefaults "U"
      (runSaves
        [{ id := "W1", userId := "U", name := "A", isDefault := true,
           stocks := [] },
         { id := "W2", userId := "U", name := "B", isDefault := true,
           stocks := [] }]) ≤ 1 ∧
    runSaves
        [{ id := "W1", userId := "U", name := "A", isDefault := true,
           stocks := [] },
         { id := "W2", userId := "U", name := "B", isDefault := true,
           stocks := [] }]
      = [{ id := "W1", userId := "U", name := "A", isDefault := false,
           stocks := [] },
         { id := "W2", userId := "U", name := "B", isDefault := true,
           stocks := [] }] := by
  constructor
  · exact (watchlist_single_default
      [{ id := "W1", userId := "U", name := "A", isDefault := true,
         stocks := [] },
       { id := "W2", userId := "U", name := "B", isDefault := true,
         stocks := [] }] "U"
      { id := "W1", userId := "U", name := "A", isDefault := true,
        stocks := [] } []).1
  · rfl

/-- Counterexample to C7 as stated: submitting the duplicated list
`[INFY:NSE, INFY:NSE]` against a watchlist holding the single entry
`INFY:NSE` is *not* a permutation (the cardinalities are 1 and 2), yet the
handler's `Set`-based comparison accepts it and stores the duplicate. -/
theorem reorder_duplicate_counterexample :
    reorderStocks
        { id := "W1", userId := "U", name := "Default", isDefault := false,
          stocks := [{ symbol := "INFY", exchange := "NSE" }] }
        [{ symbol := "INFY", exchange := "NSE" },
         { symbol := "INFY", exchange := "NSE" }]
      = Except.ok
          { id := "W1", userId := "U", name := "Default", isDefault := false,
            stocks := [{ symbol := "INFY", exchange := "NSE" },
                       { symbol := "INFY", exchange := "NSE" }] } ∧
    [({ symbol := "INFY", exchange := "NSE" } : Stock),
     { symbol := "INFY", exchange := "NSE" }].length ≠
      [({ symbol := "INFY", exchange := "NSE" } : Stock)].length := by
  exact ⟨rfl, by decide⟩

/-- Claim C7 (amended): reorder succeeds exactly when the *set* of
`symbol:exchange` keys of the submitted list equals the set of keys of the
stored list — multiplicities are not compared, so a submitted list may
duplicate entries (or drop duplicate occurrences) and still be accepted;
on success the stored stock array becomes the submitted list. -/
theorem reorder_set_equality (wl : Watchlist) (stocks : List Stock) :
    ((∃ wl2, reorderStocks wl stocks = Except.ok wl2) ↔
      (stocks.map stockKey).toFinset = (wl.stocks.map stockKey).toFinset) ∧
    (∀ wl2, reorderStocks wl stocks = Except.ok wl2 →
      wl2 = { wl with stocks := stocks }) := by
  have hcard1 : ((stocks.map stockKey).toFinset).card
      = (stocks.map stockKey).dedup.length := List.card_toFinset _
  have hcard2 : ((wl.stocks.map stockKey).toFinset).card
      = (wl.stocks.map stockKey).dedup.length := List.card_toFinset _
  constructor
  · constructor
    · rintro ⟨wl2, h2⟩
      unfold reorderStocks at h2
      split at h2
      · exact absurd h2 (by simp)
      · split at h2
        · exact absurd h2 (by simp)
        · rename_i hlen hany
          have hlen2 : (wl.stocks.map stockKey).dedup.length
              = (stocks.map stockKey).dedup.length := not_ne_iff.mp hlen
          have hanyf : (stocks.any
              (fun s => !((wl.stocks.map stockKey).contains (stockKey s))))
              = false := Bool.eq_false_iff.mpr hany
          rw [List.any_eq_false] at hanyf
          have hsub : (stocks.map stockKey).toFinset ⊆
              (wl.stocks.map stockKey).toFinset := by
            intro k hk
            rw [List.mem_toFinset] at hk
            obtain ⟨s, hs, hks⟩ := List.mem_map.mp hk
            have hc := hanyf s hs
            simp only [Bool.not_eq_false] at hc
            rw [List.mem_toFinset, ← hks]
            simpa using hc
          exact Finset.eq_of_subset_of_card_le hsub
            (by rw [hcard1, hcard2, hlen2])
    · intro hset
      refine ⟨{ wl with stocks := stocks }, ?_⟩
      unfold reorderStocks
      have hlen2 : (wl.stocks.map stockKey).dedup.length
          = (stocks.map stockKey).dedup.length := by
        rw [← hcard1, ← hcard2, hset]
      rw [if_neg (not_ne_iff.mpr hlen2)]
      have hany : (stocks.any
          (fun s => !((wl.stocks.map stockKey).contains (stockKey s))))
          = false := by
        rw [List.any_eq_false]
        intro s hs
        have hk : stockKey s ∈ (wl.stocks.map stockKey).toFinset := by
          rw [← hset, List.mem_toFinset]
          exact List.mem_map_of_mem _ hs
        rw [List.mem_toFinset] at hk
        simp [hk]
      rw [hany]
      simp
  · intro wl2 h2
    unfold reorderStocks at h2
    split at h2
    · exact absurd h2 (by simp)
    · split at h2
      · exact absurd h2 (by simp)
      · simp only [Except.ok.injEq] at h2
        exact h2.symm

/-- Witness for C7 (amended): reversing a two-element watchlist succeeds,
the stored order becomes the submitted order, and the key sets coincide. -/
theorem reorder_set_equality_witness :
    reorderStocks
        { id := "W1", userId := "U", name := "Default", isDefault := false,
          stocks := [{ symbol := "INFY", exchange := "NSE" },
                     { symbol := "TCS", exchange := "NSE" }] }
        [{ symbol := "TCS", exchange := "NSE" },
         { symbol := "INFY", exchange := "NSE" }]
      = Except.ok
          { id := "W1", userId := "U", name := "Default", isDefault := false,
            stocks := [{ symbol := "TCS", exchange := "NSE" },
                       { symbol := "INFY", exchange := "NSE" }] } ∧
    ([({ symbol := "TCS", exchange := "NSE" } : Stock),
      { symbol := "INFY", exchange := "NSE" }].map stockKey).toFinset
      = ([({ symbol := "INFY", exchange := "NSE" } : Stock),
          { symbol := "TCS", exchange := "NSE" }].map stockKey).toFinset := by
  have h2 : reorderStocks
      { id := "W1", userId := "U", name := "Default", isDefault := false,
        stocks := [{ symbol := "INFY", exchange := "NSE" },
                   { symbol := "TCS", exchange := "NSE" }] }
      [{ symbol := "TCS", exchange := "NSE" },
       { symbol := "INFY", exchange := "NSE" }]
      = Except.ok
          { id := "W1", userId := "U", name := "Default", isDefault := false,
            stocks := [{ symbol := "TCS", exchange := "NSE" },
                       { symbol := "INFY", exchange := "NSE" }] } := rfl
  exact ⟨h2, (reorder_set_equality
    { id := "W1", userId := "U", name := "Default", isDefault := false,
      stocks := [{ symbol := "INFY", exchange := "NSE" },
                 { symbol := "TCS", exchange := "NSE" }] }
    [{ symbol := "TCS", exchange := "NSE" },
     { symbol := "INFY", exchange := "NSE" }]).1.mp ⟨_, h2⟩⟩

lemma findSymbolIdx_characterize (symbol : String) (l : List Stock) :
    (findSymbolIdx l symbol = none → ∀ x ∈ l, x.symbol ≠ symbol) ∧
    (∀ i, findSymbolIdx l symbol = some i →
      ∃ pre x post, l = pre ++ x :: post ∧ x.symbol = symbol ∧
        (∀ y ∈ pre, y.symbol ≠ symbol) ∧ l.eraseIdx i = pre ++ post) := by
  induction l with
  | nil =>
      refine ⟨fun _ x hx => absurd hx (List.not_mem_nil x), fun i hi => ?_⟩
      simp [findSymbolIdx] at hi
  | cons a t ih =>
      constructor
      · intro hn x hx
        unfold findSymbolIdx at hn
        by_cases ha : (a.symbol == symbol) = true
        · rw [if_pos ha] at hn; cases hn
        · rw [if_neg ha] at hn
          have hnt : findSymbolIdx t symbol = none := by
            cases hft : findSymbolIdx t symbol with
            | none => rfl
            | some j => rw [hft] at hn; cases hn
          rcases List.mem_cons.mp hx with hxa | hxt
          · subst hxa; simpa using ha
          · exact (ih.1 hnt) x hxt
      · intro i hi
        unfold findSymbolIdx at hi
        by_cases ha : (a.symbol == symbol) = true
        · rw [if_pos ha] at hi
          injection hi with hi0
          subst hi0
          exact ⟨[], a, t, by simp, by simpa using ha, by simp, by simp⟩
        · rw [if_neg ha] at hi
          cases hft : findSymbolIdx t symbol with
          | none => rw [hft] at hi; cases hi
          | some j =>
              rw [hft] at hi
              simp only [Option.map_some'] at hi
              injection hi with hij
              obtain ⟨pre, x, post, h1, h2, h3, h4⟩ := ih.2 j hft
              refine ⟨a :: pre, x, post, by rw [List.cons_append, h1],
                h2, ?_, ?_⟩
              · intro y hy
                rcases List.mem_cons.mp hy with hya | hyp
                · subst hya; simpa using ha
                · exact h3 y hyp
              · subst hij
                simp [List.eraseIdx, h4]

/-- Counterexample to C8 as stated: with the single entry (INFY, BSE)
stored, no (INFY, NSE) pair is present, so the claim demands a NotFound
failure — but the `removeItem` schema method is a silent no-op (it cannot
fail at all), and the route handler, which receives only the symbol,
deletes the (INFY, BSE) entry. -/
theorem removeStock_exchange_counterexample :
    removeItem
        { id := "W1", userId := "U", name := "Default", isDefault := false,
          stocks := [{ symbol := "INFY", exchange := "BSE" }] }
        "INFY" "NSE"
      = { id := "W1", userId := "U", name := "Default", isDefault := false,
          stocks := [{ symbol := "INFY", exchange := "BSE" }] } ∧
    removeStockRoute
        { id := "W1", userId := "U", name := "Default", isDefault := false,
          stocks := [{ symbol := "INFY", exchange := "BSE" }] }
        "INFY"
      = Except.ok
          { id := "W1", userId := "U", name := "Default", isDefault := false,
            stocks := [] } := by
  exact ⟨rfl, rfl⟩

/-- Claim C8 (amended): the route handler matches by symbol alone (the
exchange is not consulted): it fails with NotFound exactly when no entry
with that symbol is present, and otherwise removes exactly the first entry
with that symbol, preserving the relative order of the remaining entries.
The schema method `removeItem(symbol, exchange)` never fails: it removes
every entry matching the exact (symbol, exchange) pair — a no-op when the
pair is absent — preserving the order of the remaining entries. -/
theorem removeStock_behavior (wl : Watchlist) (symbol exchange : String) :
    ((∀ s ∈ wl.stocks, s.symbol ≠ symbol) →
      removeStockRoute wl symbol = Except.error "Stock not found") ∧
    (∀ wl2, removeStockRoute wl symbol = Except.ok wl2 →
      ∃ pre x post, wl.stocks = pre ++ x :: post ∧ x.symbol = symbol ∧
        (∀ y ∈ pre, y.symbol ≠ symbol) ∧ wl2.stocks = pre ++ post) ∧
    ((removeItem wl symbol exchange).stocks.Sublist wl.stocks ∧
      ∀ x, x ∈ (removeItem wl symbol exchange).stocks ↔
        x ∈ wl.stocks ∧ ¬(x.symbol = symbol ∧ x.exchange = exchange)) := by
  refine ⟨?_, ?_, ?_, ?_⟩
  · intro habsent
    unfold removeStockRoute
    cases hf : findSymbolIdx wl.stocks symbol with
    | none => rfl
    | some i =>
        exfalso
        obtain ⟨pre, x, post, h1, h2, _, _⟩ :=
          (findSymbolIdx_characterize symbol wl.stocks).2 i hf
        exact habsent x (by rw [h1]; simp) h2
  · intro wl2 h2
    unfold removeStockRoute at h2
    cases hf : findSymbolIdx wl.stocks symbol with
    | none => rw [hf] at h2; cases h2
    | some i =>
        rw [hf] at h2
        simp only [Except.ok.injEq] at h2
        obtain ⟨pre, x, post, h1, hx, hpre, herase⟩ :=
          (findSymbolIdx_characterize symbol wl.stocks).2 i hf
        exact ⟨pre, x, post, h1, hx, hpre, by rw [← h2]; exact herase⟩
  · exact List.filter_sublist wl.stocks
  · intro x
    unfold removeItem
    simp only [List.mem_filter, Bool.not_eq_true', Bool.and_eq_false_iff]
    constructor
    · rintro ⟨hm, hp⟩
      refine ⟨hm, ?_⟩
      rintro ⟨hs, he⟩
      simp [hs, he] at hp
    · rintro ⟨hm, hp⟩
      refine ⟨hm, ?_⟩
      by_cases hs : x.symbol = symbol
      · by_cases he : x.exchange = exchange
        · exact absurd ⟨hs, he⟩ hp
        · simp [he]
      · simp [hs]

/-- Witness for C8 (amended): removing symbol WIPRO from a watchlist that
does not contain it fails with NotFound; removing INFY removes exactly the
first INFY entry and keeps the rest in order; `removeItem` deletes the
exact pair. -/
theorem removeStock_behavior_witness :
    removeStockRoute
        { id := "W1", userId := "U", name := "Default", isDefault := false,
          stocks := [{ symbol := "INFY", exchange := "NSE" },
                     { symbol := "TCS", exchange := "NSE" }] }
        "WIPRO"
      = Except.error "Stock not found" ∧
    (removeItem
        { id := "W1", userId := "U", name := "Default", isDefault := false,
          stocks := [{ symbol := "INFY", exchange := "NSE" },
                     { symbol := "TCS", exchange := "NSE" }] }
        "INFY" "NSE").stocks.Sublist
      [{ symbol := "INFY", exchange := "NSE" },
       { symbol := "TCS", exchange := "NSE" }] := by
  constructor
  · exact (removeStock_behavior
      { id := "W1", userId := "U", name := "Default", isDefault := false,
        stocks := [{ symbol := "INFY", exchange := "NSE" },
                   { symbol := "TCS", exchange := "NSE" }] }
      "WIPRO" "NSE").1 (by decide)
  · exact (removeStock_behavior
      { id := "W1", userId := "U", name := "Default", isDefault := false,
        stocks := [{ symbol := "INFY", exchange := "NSE" },
                   { symbol := "TCS", exchange := "NSE" }] }
      "INFY" "NSE").2.2.1

/-- Claim C10: for every holding-add request that passes input validation,
the constructed document carries none of the schema's required fields
(`symbol`, `quantity`, `averageBuyPrice`, `currentMarketPrice` are all
unset, because the handler's fields `name, qty, avg, price, net, day` are
not HoldingsSchema paths), so the save is rejected by schema validation
and the handler can only take the generic 500 error path — the 201 branch
is unreachable. -/
theorem addHolding_schema_mismatch (userId name : String) (qty : Int)
    (avg price : Rat) (store : List HoldingDoc)
    (hvalid : holdingInputValid name qty avg price = true) :
    validateHoldingDoc (buildAddHoldingDoc userId name qty avg price)
      = Except.error "Stock symbol is required" ∧
    (buildAddHoldingDoc userId name qty avg price).symbol = none ∧
    (buildAddHoldingDoc userId name qty avg price).quantity = none ∧
    (buildAddHoldingDoc userId name qty avg price).averageBuyPrice = none ∧
    (buildAddHoldingDoc userId name qty avg price).currentMarketPrice = none ∧
    addHoldingHandler userId name qty avg price store
      = AddHoldingOutcome.serverError := by
  refine ⟨rfl, rfl, rfl, rfl, rfl, ?_⟩
  unfold addHoldingHandler
  rw [hvalid]
  simp only [Bool.not_true, Bool.false_eq_true, if_false]
  rw [if_neg ?hq]
  case hq =>
    intro hc
    rw [List.any_eq_true] at hc
    obtain ⟨d, _, hd⟩ := hc
    simp [docMatchesNameQuery] at hd
  rfl

/-- Witness for C10: a well-formed concrete request (name TCS, qty 5,
avg 100, price 120) passes input validation yet ends in the 500 branch. -/
theorem addHolding_schema_mismatch_witness :
    holdingInputValid "TCS" 5 100 120 = true ∧
    addHoldingHandler "U" "TCS" 5 100 120 []
      = AddHoldingOutcome.serverError := by
  have hv : holdingInputValid "TCS" 5 100 120 = true := by
    norm_num [holdingInputValid]
    decide
  exact ⟨hv, (addHolding_schema_mismatch "U" "TCS" 5 100 120 [] hv).2.2.2.2.2⟩

lemma bulk_collect (userId : String) (store : List Holding) :
    ∀ (updates : List BulkUpdateItem) (a : List BulkOp) (b : List BulkErr),
      updates.foldl (bulkStep userId store) (a, b)
        = (a ++ updates.filterMap (opOf userId store),
           b ++ updates.filterMap (errOf userId store)) := by
  intro updates
  induction updates with
  | nil => intro a b; simp
  | cons u rest ih =>
      intro a b
      rw [List.foldl_cons]
      by_cases hfal : (jsFalsyStr u.holdingId || jsFalsyNum u.price) = true
      · have hstep : bulkStep userId store (a, b) u
            = (a, b ++ [BulkErr.invalidData u.holdingId]) := by
          unfold bulkStep; rw [if_pos hfal]
        have hop : opOf userId store u = none := by
          unfold opOf; rw [if_pos hfal]
        have herr : errOf userId store u
            = some (BulkErr.invalidData u.holdingId) := by
          unfold errOf; rw [if_pos hfal]
        rw [hstep, ih, List.filterMap_cons, List.filterMap_cons, hop, herr]
        simp
      · have hfalf : (jsFalsyStr u.holdingId || jsFalsyNum u.price) = false :=
          Bool.eq_false_iff.mpr hfal
        cases hid : u.holdingId with
        | none => exact absurd (by rw [hid]; simp [jsFalsyStr]) hfal
        | some hidv =>
            cases hpr : u.price with
            | none => exact absurd (by rw [hpr]; simp [jsFalsyNum]) hfal
            | some p =>
                cases hfind : findHolding store hidv userId with
                | none =>
                    have hstep : bulkStep userId store (a, b) u
                        = (a, b ++ [BulkErr.notFound hidv]) := by
                      unfold bulkStep
                      rw [hfalf]
                      simp only [Bool.false_eq_true, if_false]
                      rw [hid, hpr]
                      simp [hfind]
                    have hop : opOf userId store u = none := by
                      unfold opOf
                      rw [hfalf]
                      simp only [Bool.false_eq_true, if_false]
                      rw [hid, hpr]
                      simp [hfind]
                    have herr : errOf userId store u
                        = some (BulkErr.notFound hidv) := by
                      unfold errOf
                      rw [hfalf]
                      simp only [Bool.false_eq_true, if_false]
                      rw [hid, hpr]
                      simp [hfind]
                    rw [hstep, ih, List.filterMap_cons, List.filterMap_cons,
                      hop, herr]
                    simp
                | some h =>
                    have hstep : bulkStep userId store (a, b) u
                        = (a ++ [{ id := hidv, price := p,
                                   net := holdingNet h.qty h.avg p,
                                   day := holdingDay h.avg p }], b) := by
                      unfold bulkStep
                      rw [hfalf]
                      simp only [Bool.false_eq_true, if_false]
                      rw [hid, hpr]
                      simp [hfind]
                    have hop : opOf userId store u
                        = some { id := hidv, price := p,
                                 net := holdingNet h.qty h.avg p,
                                 day := holdingDay h.avg p } := by
                      unfold opOf
                      rw [hfalf]
                      simp only [Bool.false_eq_true, if_false]
                      rw [hid, hpr]
                      simp [hfind]
                    have herr : errOf userId store u = none := by
                      unfold errOf
                      rw [hfalf]
                      simp only [Bool.false_eq_true, if_false]
                      rw [hid, hpr]
                      simp [hfind]
                    rw [hstep, ih, List.filterMap_cons, List.filterMap_cons,
                      hop, herr]
                    simp

lemma applyBulkOp_id (userId : String) (op : BulkOp) (h hv : Holding) :
    (applyBulkOp userId op h hv).id = hv.id := by
  unfold applyBulkOp; split <;> rfl

lemma applyBulkOp_userId (userId : String) (op : BulkOp) (h hv : Holding) :
    (applyBulkOp userId op h hv).userId = hv.userId := by
  unfold applyBulkOp; split <;> rfl

lemma updateOne_map (userId : String) (op : BulkOp) :
    ∀ (store : List Holding), (store.map Holding.id).Nodup →
      updateOne userId op store
        = store.map (fun h => applyBulkOp userId op h h) := by
  intro store
  induction store with
  | nil => intro _; rfl
  | cons h rest ih =>
      intro hnd
      rw [List.map_cons, List.nodup_cons] at hnd
      rw [List.map_cons]
      unfold updateOne
      by_cases hc : (h.id == op.id && h.userId == userId) = true
      · rw [if_pos hc]
        simp only [Bool.and_eq_true, beq_iff_eq] at hc
        have hhead : applyBulkOp userId op h h
            = { h with price := op.price, net := op.net, day := op.day } := by
          unfold applyBulkOp; rw [if_pos ⟨hc.1, hc.2⟩]
        rw [hhead]
        have hrest : rest.map (fun x => applyBulkOp userId op x x) = rest := by
          have : ∀ x ∈ rest, applyBulkOp userId op x x = x := by
            intro x hx
            unfold applyBulkOp
            rw [if_neg]
            rintro ⟨hxid, _⟩
            exact hnd.1 (by rw [hc.1, ← hxid]; exact List.mem_map_of_mem _ hx)
          calc rest.map (fun x => applyBulkOp userId op x x)
              = rest.map id := List.map_congr_left this
            _ = rest := List.map_id rest
        rw [hrest]
      · rw [if_neg hc]
        have hhead : applyBulkOp userId op h h = h := by
          unfold applyBulkOp
          rw [if_neg]
          rintro ⟨h1, h2⟩
          exact hc (by simp [h1, h2])
        rw [hhead, ih hnd.2]

lemma bulkWrite_map (userId : String) :
    ∀ (ops : List BulkOp) (store : List Holding),
      (store.map Holding.id).Nodup →
      bulkWrite userId store ops
        = store.map (fun h =>
            ops.foldl (fun hv op => applyBulkOp userId op h hv) h) := by
  intro ops
  induction ops with
  | nil =>
      intro store _
      unfold bulkWrite
      simp
  | cons op rest ih =>
      intro store hnd
      have hone : bulkWrite userId store (op :: rest)
          = bulkWrite userId (updateOne userId op store) rest := by
        unfold bulkWrite
        rw [List.foldl_cons]
      rw [hone, updateOne_map userId op store hnd]
      have hnd2 : ((store.map (fun h => applyBulkOp userId op h h)).map
          Holding.id).Nodup := by
        rw [List.map_map]
        have : (fun h => (applyBulkOp userId op h h).id) = Holding.id := by
          funext h
          exact applyBulkOp_id userId op h h
        rw [show ((Holding.id ∘ fun h => applyBulkOp userId op h h)
            = Holding.id) from by
          funext h
          exact applyBulkOp_id userId op h h]
        exact hnd
      rw [ih _ hnd2, List.map_map]
      apply List.map_congr_left
      intro h _
      show rest.foldl
          (fun hv op2 => applyBulkOp userId op2 (applyBulkOp userId op h h) hv)
          (applyBulkOp userId op h h)
        = (op :: rest).foldl (fun hv op2 => applyBulkOp userId op2 h hv) h
      rw [List.foldl_cons]
      have hfun : (fun hv op2 => applyBulkOp userId op2
          (applyBulkOp userId op h h) hv)
          = (fun hv op2 => applyBulkOp userId op2 h hv) := by
        funext hv op2
        by_cases hcc : h.id = op.id ∧ h.userId = userId
        · have e : applyBulkOp userId op h h
              = { h with price := op.price, net := op.net, day := op.day } := by
            unfold applyBulkOp; rw [if_pos hcc]
          rw [e]
          rfl
        · have e : applyBulkOp userId op h h = h := by
            unfold applyBulkOp; rw [if_neg hcc]
          rw [e]
      rw [hfun]

lemma foldl_choice_acc {b : Type} (p : b → Bool) :
    ∀ (l : List b) (acc : Option b),
      l.foldl (fun a x => if p x then some x else a) acc
        = (l.foldl (fun a x => if p x then some x else a) none).or acc := by
  intro l
  induction l with
  | nil => intro acc; rfl
  | cons x t ih =>
      intro acc
      rw [List.foldl_cons, List.foldl_cons]
      by_cases hp : p x = true
      · rw [if_pos hp, if_pos hp, ih (some x)]
        cases ht : t.foldl (fun a x => if p x then some x else a) none with
        | none => rfl
        | some y => rfl
      · rw [if_neg hp, if_neg hp]
        exact ih acc

lemma foldl_applyBulkOp_eq (userId : String) (h : Holding) :
    ∀ (ops : List BulkOp) (hv : Holding),
      ops.foldl (fun hv2 op => applyBulkOp userId op h hv2) hv
        = match lastApplicable userId h ops with
          | none => hv
          | some lop =>
              { hv with price := lop.price, net := lop.net,
                        day := lop.day } := by
  intro ops
  induction ops with
  | nil => intro hv; rfl
  | cons op rest ih =>
      intro hv
      rw [List.foldl_cons]
      by_cases hc : ((op.id == h.id) && (h.userId == userId)) = true
      · have hc2 : h.id = op.id ∧ h.userId = userId := by
          simp only [Bool.and_eq_true, beq_iff_eq] at hc
          exact ⟨hc.1.symm, hc.2⟩
        have happ : applyBulkOp userId op h hv
            = { hv with price := op.price, net := op.net, day := op.day } := by
          unfold applyBulkOp; rw [if_pos hc2]
        have hE : lastApplicable userId h (op :: rest)
            = (lastApplicable userId h rest).or (some op) := by
          unfold lastApplicable
          rw [List.foldl_cons, if_pos hc]
          exact foldl_choice_acc
            (fun o => (o.id == h.id) && (h.userId == userId)) rest (some op)
        rw [happ, ih, hE]
        cases hrest : lastApplicable userId h rest with
        | none => rfl
        | some l => rfl
      · have happ : applyBulkOp userId op h hv = hv := by
          unfold applyBulkOp
          rw [if_neg]
          rintro ⟨h1, h2⟩
          exact hc (by simp [h1, h2])
        have hE : lastApplicable userId h (op :: rest)
            = lastApplicable userId h rest := by
          unfold lastApplicable
          rw [List.foldl_cons, if_neg hc]
        rw [happ, hE, ih]

/-- Counterexample to C5 as stated: the single update item has its id
present, its price present (0), and the id resolves for the caller, so by
the claim it is a valid item that must be applied with no error entry; the
loop's JavaScript truthiness test `!price` classifies it as invalid: one
error entry is produced and the holding is not updated. -/
theorem bulk_update_zero_price_counterexample :
    findHolding
        [{ id := "H1", userId := "U", name := "TCS", qty := 2, avg := 10,
           price := 10, net := 0, day := 0 }] "H1" "U"
      = some { id := "H1", userId := "U", name := "TCS", qty := 2, avg := 10,
               price := 10, net := 0, day := 0 } ∧
    bulkUpdateHoldings "U"
        [{ id := "H1", userId := "U", name := "TCS", qty := 2, avg := 10,
           price := 10, net := 0, day := 0 }]
        [{ holdingId := some "H1", price := some 0 }]
      = ([{ id := "H1", userId := "U", name := "TCS", qty := 2, avg := 10,
            price := 10, net := 0, day := 0 }],
         [BulkErr.invalidData (some "H1")]) := by
  exact ⟨rfl, rfl⟩

/-- Claim C5 (amended): over a store with distinct holding ids, bulk
update never aborts: the response's error list is exactly one entry per
failing item, in order (an item fails when its id is missing or empty,
its price is missing *or zero*, or its id does not resolve for the
caller), and the final store updates every holding targeted by valid
items — each holding ends up with the price, net and day of the last
valid item addressed to it, and holdings targeted by no valid item are
unchanged.  In particular a failing item never prevents later valid items
from being applied. -/
theorem bulk_update_partial_success (userId : String) (store : List Holding)
    (updates : List BulkUpdateItem)
    (hnd : (store.map Holding.id).Nodup) :
    (bulkUpdateHoldings userId store updates).2
      = updates.filterMap (errOf userId store) ∧
    (bulkUpdateHoldings userId store updates).1
      = store.map (fun h =>
          match lastApplicable userId h
              (updates.filterMap (opOf userId store)) with
          | none => h
          | some lop =>
              { h with price := lop.price, net := lop.net,
                       day := lop.day }) ∧
    (∀ u ∈ updates,
      itemFails userId store u = false ↔ errOf userId store u = none) := by
  have hcol := bulk_collect userId store updates
    ([] : List BulkOp) ([] : List BulkErr)
  refine ⟨?_, ?_, ?_⟩
  · unfold bulkUpdateHoldings
    rw [hcol]
    simp
  · unfold bulkUpdateHoldings
    rw [hcol]
    simp only [List.nil_append]
    rw [bulkWrite_map userId _ store hnd]
    apply List.map_congr_left
    intro h _
    exact foldl_applyBulkOp_eq userId h _ h
  · intro u _
    by_cases hfal : (jsFalsyStr u.holdingId || jsFalsyNum u.price) = true
    · have h1 : itemFails userId store u = true := by
        unfold itemFails
        rw [hfal]
        simp
      have h2 : errOf userId store u = some (BulkErr.invalidData u.holdingId) := by
        unfold errOf
        rw [if_pos hfal]
      rw [h1, h2]
      simp
    · have hfalf : (jsFalsyStr u.holdingId || jsFalsyNum u.price) = false :=
        Bool.eq_false_iff.mpr hfal
      cases hid : u.holdingId with
      | none => exact absurd (by rw [hid]; simp [jsFalsyStr]) hfal
      | some hidv =>
          cases hpr : u.price with
          | none => exact absurd (by rw [hpr]; simp [jsFalsyNum]) hfal
          | some p =>
              cases hfind : findHolding store hidv userId with
              | none =>
                  have h1 : itemFails userId store u = true := by
                    unfold itemFails
                    rw [hid]
                    simp [hfind]
                  have h2 : errOf userId store u
                      = some (BulkErr.notFound hidv) := by
                    unfold errOf
                    rw [hfalf]
                    simp only [Bool.false_eq_true, if_false]
                    rw [hid, hpr]
                    simp [hfind]
                  rw [h1, h2]
                  simp
              | some hh =>
                  have h1 : itemFails userId store u = false := by
                    unfold itemFails
                    rw [hfalf, hid]
                    simp [hfind]
                  have h2 : errOf userId store u = none := by
                    unfold errOf
                    rw [hfalf]
                    simp only [Bool.false_eq_true, if_false]
                    rw [hid, hpr]
                    simp [hfind]
                  rw [h1, h2]
                  simp

/-- Witness for C5 (amended): one valid item raising the price of the
only stored holding to 12 is applied (net 4, day 20) with an empty error
list. -/
theorem bulk_update_partial_success_witness :
    (bulkUpdateHoldings "U"
        [{ id := "H1", userId := "U", name := "TCS", qty := 2, avg := 10,
           price := 10, net := 0, day := 0 }]
        [{ holdingId := some "H1", price := some 12 }]).2 = [] ∧
    (bulkUpdateHoldings "U"
        [{ id := "H1", userId := "U", name := "TCS", qty := 2, avg := 10,
           price := 10, net := 0, day := 0 }]
        [{ holdingId := some "H1", price := some 12 }]).1
      = [{ id := "H1", userId := "U", name := "TCS", qty := 2, avg := 10,
           price := 12, net := 4, day := 20 }] := by
  have h := bulk_update_partial_success "U"
    [{ id := "H1", userId := "U", name := "TCS", qty := 2, avg := 10,
       price := 10, net := 0, day := 0 }]
    [{ holdingId := some "H1", price := some 12 }]
    (by simp)
  constructor
  · rw [h.1]
    rfl
  · rw [h.2.1]
    have hop : List.filterMap
        (opOf "U" [{ id := "H1", userId := "U", name := "TCS", qty := 2,
                     avg := 10, price := 10, net := 0, day := 0 }])
        [{ holdingId := some "H1", price := some 12 }]
      = [{ id := "H1", price := 12, net := holdingNet 2 10 12,
           day := holdingDay 10 12 }] := rfl
    rw [List.map_cons, List.map_nil, hop]
    have hl : lastApplicable "U"
        { id := "H1", userId := "U", name := "TCS", qty := 2, avg := 10,
          price := 10, net := 0, day := 0 }
        [{ id := "H1", price := 12, net := holdingNet 2 10 12,
           day := holdingDay 10 12 }]
      = some { id := "H1", price := 12, net := holdingNet 2 10 12,
               day := holdingDay 10 12 } := rfl
    rw [hl]
    norm_num [holdingNet, holdingDay, Holding.mk.injEq]

end ZClone
